import Mathlib

/-!
Verification of the javacli endpoint-analysis pipeline.

The JavaScript sources are shallowly embedded: strings are lists of
characters (`Str`), each JS regular expression used by the extraction
engines is embedded as a hand-written leftmost-match scanner with the
same observable behaviour, and the line-oriented mutable scan loops are
embedded as structural recursions threading an explicit state record.
-/

/-- JS strings are modelled as lists of characters. -/
abbrev Str := List Char

/-- Convert a Lean string literal to the `Str` model. -/
def S (s : String) : Str := s.data

namespace Js

/-- JS `\w` character class: `[A-Za-z0-9_]`. -/
def isWordChar (c : Char) : Bool := c.isAlphanum || c == '_'

/-- JS `\s` character class (ASCII part): space, tab, newline, CR, VT, FF. -/
def isSpaceChar (c : Char) : Bool :=
  c == ' ' || c == '\t' || c == '\n' || c == '\r' || c == '\x0b' || c == '\x0c'

/-- A quote character, JS class `["']`. -/
def isQuote (c : Char) : Bool := c == '"' || c == '\''

/-- JS `String.prototype.trim`. -/
def trim (s : Str) : Str :=
  ((s.dropWhile isSpaceChar).reverse.dropWhile isSpaceChar).reverse

/-- JS `content.split(sep)` for a single-character separator. -/
def splitOn (sep : Char) : Str → List Str
  | [] => [[]]
  | c :: rest =>
    if c == sep then [] :: splitOn sep rest
    else
      match splitOn sep rest with
      | [] => [[c]]
      | l :: ls => (c :: l) :: ls

/-- If `pat` is a literal prefix of `s`, return the remainder of `s`. -/
def stripLit (pat s : Str) : Option Str :=
  if pat.isPrefixOf s then some (s.drop pat.length) else none

/-- Does `s` contain `pat` as a substring (JS `regex.test` on a literal)? -/
def containsSub (pat : Str) : Str → Bool
  | [] => pat.isEmpty
  | c :: rest => pat.isPrefixOf (c :: rest) || containsSub pat rest

/-- Suffix of `s` just after the first occurrence of the literal `pat`,
or `none` when `pat` does not occur. -/
def findSub (pat : Str) : Str → Option Str
  | [] => if pat.isEmpty then some [] else none
  | c :: rest =>
    if pat.isPrefixOf (c :: rest) then some ((c :: rest).drop pat.length)
    else findSub pat rest

/-- JS `s.startsWith(pat)`. -/
def jsStartsWith (s pat : Str) : Bool := pat.isPrefixOf s

/-- JS `s.endsWith(pat)`. -/
def jsEndsWith (s pat : Str) : Bool := pat.reverse.isPrefixOf s.reverse

end Js

/-- The five HTTP verb annotations recognised by the mapping pattern
`@(Get|Post|Put|Delete|Patch)Mapping`. -/
inductive Verb where
  | get
  | post
  | put
  | del
  | patch
deriving DecidableEq

/-- The uppercased verb, JS `mappingMatch[1].toUpperCase()`. -/
def Verb.upper : Verb → Str
  | .get => S "GET"
  | .post => S "POST"
  | .put => S "PUT"
  | .del => S "DELETE"
  | .patch => S "PATCH"

/-- Length of the verb's annotation fragment (`Get`, `Post`, ...). -/
def Verb.fragLen : Verb → Nat
  | .get => 3
  | .post => 4
  | .put => 3
  | .del => 6
  | .patch => 5

namespace Rx

/-- Match the alternation `(Get|Post|Put|Delete|Patch)` at the head of `s`,
returning the verb and the remainder. -/
def matchVerb (s : Str) : Option (Verb × Str) :=
  match Js.stripLit (S "Get") s with
  | some t => some (.get, t)
  | none =>
  match Js.stripLit (S "Post") s with
  | some t => some (.post, t)
  | none =>
  match Js.stripLit (S "Put") s with
  | some t => some (.put, t)
  | none =>
  match Js.stripLit (S "Delete") s with
  | some t => some (.del, t)
  | none =>
  match Js.stripLit (S "Patch") s with
  | some t => some (.patch, t)
  | none => none

/-- `/@(RestController|Controller)/.test(line)`: the line contains
`@RestController` or `@Controller`. -/
def controllerTest (line : Str) : Bool :=
  Js.containsSub (S "@RestController") line || Js.containsSub (S "@Controller") line

/-- Match `/class\s+(\w+)/` exactly at the start of `s`, returning the capture. -/
def classAt (s : Str) : Option Str :=
  match Js.stripLit (S "class") s with
  | none => none
  | some t =>
    let sp := t.takeWhile Js.isSpaceChar
    if sp.isEmpty then none
    else
      let w := (t.drop sp.length).takeWhile Js.isWordChar
      if w.isEmpty then none else some w

/-- Leftmost match of `/class\s+(\w+)/`, returning capture group 1. -/
def classExec : Str → Option Str
  | [] => none
  | c :: rest =>
    match classAt (c :: rest) with
    | some w => some w
    | none => classExec rest

/-- Match `\s*["']([^"']*)["']` at the start of `s` (used inside the
request-mapping and verb-mapping argument patterns); returns the capture and
the remainder after the closing quote. -/
def quoted (s : Str) : Option (Str × Str) :=
  let t := s.drop (s.takeWhile Js.isSpaceChar).length
  match t with
  | q :: t1 =>
    if Js.isQuote q then
      let cap := t1.takeWhile (fun c => !(Js.isQuote c))
      match t1.drop cap.length with
      | q2 :: t2 => if Js.isQuote q2 then some (cap, t2) else none
      | [] => none
    else none
  | [] => none

end Rx

/-- JS `methodPath.replace(/^\//, '')`: remove a single leading slash. -/
def stripLeadingSlash : Str → Str
  | '/' :: rest => rest
  | s => s

/-- JS `expr || '/'`: an empty string falls back to `"/"`. -/
def jsOrSlash (s : Str) : Str := if s.isEmpty then S "/" else s

namespace Analyzer

/-- Endpoint record of `src/analyzer.js` (class `Endpoint`, seven fields). -/
structure Endpoint where
  method : Str
  path : Str
  className : Str
  methodName : Str
  filePath : Str
  lineNumber : Nat
  parameters : List Str
deriving DecidableEq

/-- `ensureLeadingSlash` from `src/analyzer.js` (lines 202-210). -/
def ensureLeadingSlash (path : Str) : Str :=
  if path.isEmpty then S "/"
  else if !(Js.jsStartsWith path (S "/")) then '/' :: path
  else path

/-- `buildFullPath` from `src/analyzer.js` (lines 174-195): the separator is
inserted only when the composed base does not end with `/` AND the method
fragment does not start with `/`; a single leading slash of the method
fragment is then removed unconditionally. -/
def buildFullPath (basePath methodPath : Str) : Str :=
  if basePath.isEmpty && methodPath.isEmpty then S "/"
  else if basePath.isEmpty then ensureLeadingSlash methodPath
  else if methodPath.isEmpty then ensureLeadingSlash basePath
  else
    let f0 := ensureLeadingSlash basePath
    let f1 :=
      if !(Js.jsEndsWith f0 (S "/")) && !(Js.jsStartsWith methodPath (S "/"))
      then f0 ++ S "/" else f0
    f1 ++ stripLeadingSlash methodPath

/-- Match `/@RequestMapping\s*\(\s*["']([^"']*)["']/` exactly at the start
(note: no closing parenthesis is required by this variant). -/
def rmAt (s : Str) : Option Str :=
  match Js.stripLit (S "@RequestMapping") s with
  | none => none
  | some t =>
    let t1 := t.drop (t.takeWhile Js.isSpaceChar).length
    match t1 with
    | '(' :: t2 => (Rx.quoted t2).map Prod.fst
    | _ => none

/-- Leftmost match of the class-level request-mapping pattern. -/
def rmExec : Str → Option Str
  | [] => none
  | c :: rest =>
    match rmAt (c :: rest) with
    | some p => some p
    | none => rmExec rest

/-- Match the optional argument group `\(\s*["']([^"']*)["']\s*\)` of the
verb-mapping pattern; `none` when the group is absent or malformed (the
group is optional, so the overall match still succeeds). -/
def mapArg (t : Str) : Option Str :=
  match t with
  | '(' :: t1 =>
    match Rx.quoted t1 with
    | none => none
    | some (cap, t2) =>
      let t3 := t2.drop (t2.takeWhile Js.isSpaceChar).length
      match t3 with
      | ')' :: _ => some cap
      | _ => none
  | _ => none

/-- Match `/@(Get|Post|Put|Delete|Patch)Mapping\s*(?:\(\s*["']([^"']*)["']\s*\))?/`
exactly at the start of `s`. -/
def mapAt (s : Str) : Option (Verb × Option Str) :=
  match Js.stripLit (S "@") s with
  | none => none
  | some t0 =>
  match Rx.matchVerb t0 with
  | none => none
  | some (v, t1) =>
  match Js.stripLit (S "Mapping") t1 with
  | none => none
  | some t2 =>
    let t3 := t2.drop (t2.takeWhile Js.isSpaceChar).length
    some (v, mapArg t3)

/-- Leftmost match of the verb-mapping pattern. -/
def mapExec : Str → Option (Verb × Option Str)
  | [] => none
  | c :: rest =>
    match mapAt (c :: rest) with
    | some r => some r
    | none => mapExec rest

/-- Consume one of the alternatives `public|private|protected` (they are
mutually exclusive prefixes, tried in this order). -/
def visSplit (s : Str) : Option Str :=
  match Js.stripLit (S "public") s with
  | some t => some t
  | none =>
  match Js.stripLit (S "private") s with
  | some t => some t
  | none => Js.stripLit (S "protected") s

/-- Match `\s*\w+\s+(\w+)\s*\(([^)]*)\)` at the start of `t0`, returning
the method-name and parameter-list captures. -/
def methodTail (t0 : Str) : Option (Str × Str) :=
  let t := t0.drop (t0.takeWhile Js.isSpaceChar).length
  let ty := t.takeWhile Js.isWordChar
  if ty.isEmpty then none
  else
    let t := t.drop ty.length
    let sp := t.takeWhile Js.isSpaceChar
    if sp.isEmpty then none
    else
      let t := t.drop sp.length
      let nm := t.takeWhile Js.isWordChar
      if nm.isEmpty then none
      else
        let t := t.drop nm.length
        let t := t.drop (t.takeWhile Js.isSpaceChar).length
        match t with
        | '(' :: t1 =>
          let ps := t1.takeWhile (fun c => c != ')')
          match t1.drop ps.length with
          | ')' :: _ => some (nm, ps)
          | _ => none
        | _ => none

/-- Match `/(public|private|protected)?\s*\w+\s+(\w+)\s*\(([^)]*)\)/` exactly
at the start of `s`: a matched visibility keyword that leaves an
unmatchable tail falls back to the empty alternative. -/
def methodAt (s : Str) : Option (Str × Str) :=
  match visSplit s with
  | some t =>
    match methodTail t with
    | some r => some r
    | none => methodTail s
  | none => methodTail s

/-- Leftmost match of the method-declaration pattern. -/
def methodExec : Str → Option (Str × Str)
  | [] => none
  | c :: rest =>
    match methodAt (c :: rest) with
    | some r => some r
    | none => methodExec rest

/-- `s.split(/\s+/)` with explicit fuel (each step consumes at least one
character, so `s.length` fuel is always enough). -/
def splitWsF : Nat → Str → List Str
  | _, [] => [[]]
  | 0, s => [s]
  | fuel + 1, c :: rest =>
    if Js.isSpaceChar c then [] :: splitWsF fuel (rest.dropWhile Js.isSpaceChar)
    else
      match splitWsF fuel rest with
      | [] => [[c]]
      | l :: ls => (c :: l) :: ls

/-- JS `trimmed.split(/\s+/)`. -/
def splitWs (s : Str) : List Str := splitWsF s.length s

/-- `parseParameters` from `src/analyzer.js` (lines 145-166): split on commas,
keep the last whitespace-separated word of each non-blank part. -/
def parseParameters (paramStr : Str) : List Str :=
  if (Js.trim paramStr).isEmpty then []
  else
    (Js.splitOn ',' paramStr).foldl
      (fun params part =>
        let t := Js.trim part
        if t.isEmpty then params
        else
          match (splitWs t).getLast? with
          | some w => params ++ [w]
          | none => params)
      []

/-- Mutable scan state of `analyzeJavaFile`. -/
structure ScanState where
  currentClass : Str
  classBasePath : Str
  isController : Bool
deriving DecidableEq

/-- Initial scan state (`'' / '' / false`). -/
def initState : ScanState := ⟨[], [], false⟩

/-- One line of the `analyzeJavaFile` loop body (priority chain with
`continue` after each early test, and the controller gate before the
verb-mapping test); returns the new state and the mapping match, if any. -/
def basicLine (st : ScanState) (t : Str) : ScanState × Option (Verb × Option Str) :=
  if Rx.controllerTest t then ({ st with isController := true }, none)
  else
    match Rx.classExec t with
    | some w => ({ st with currentClass := w }, none)
    | none =>
      match rmExec t with
      | some p => ({ st with classBasePath := p }, none)
      | none =>
        if !st.isController then (st, none)
        else
          match mapExec t with
          | some (v, arg) => (st, some (v, arg))
          | none => (st, none)

/-- The `analyzeJavaFile` line loop: `i` is the 0-based index of the current
line; the method declaration is looked for on the single next line only. -/
def scanBasic (filePath : Str) : Nat → ScanState → List Str → List Endpoint × Bool
  | _, st, [] => ([], st.isController)
  | i, st, line :: rest =>
    let p := basicLine st (Js.trim line)
    let tail := scanBasic filePath (i + 1) p.1 rest
    match p.2 with
    | none => tail
    | some (v, arg) =>
      let methodPath := arg.getD []
      let mm :=
        match rest.head? with
        | none => none
        | some nextLine => methodExec (Js.trim nextLine)
      let methodName := (mm.map Prod.fst).getD []
      let parameters :=
        match mm with
        | some (_, ps) => if ps.isEmpty then [] else parseParameters ps
        | none => []
      (⟨v.upper, buildFullPath p.1.classBasePath methodPath, p.1.currentClass,
        methodName, filePath, i + 1, parameters⟩ :: tail.1, tail.2)

/-- Result of analysing one file. -/
structure FileResult where
  endpoints : List Endpoint
  isController : Bool
deriving DecidableEq

/-- `analyzeJavaFile` from `src/analyzer.js` (lines 49-138), on the file's
text content. -/
def analyzeJavaFile (filePath content : Str) : FileResult :=
  let r := scanBasic filePath 0 initState (Js.splitOn '\n' content)
  ⟨r.1, r.2⟩

/-- A Java file presented to `analyzeEndpoints`: reading its content may
fail (`fs.readFileSync` throwing). -/
structure JavaFile where
  path : Str
  content : Except Str Str

/-- Result of a whole analysis run. -/
structure AnalyzeResult where
  endpoints : List Endpoint
  controllerCount : Nat
deriving DecidableEq

/-- `analyzeEndpoints` from `src/analyzer.js` (lines 24-42): per-file errors
are caught and skipped; `controllerCount` is incremented once per file whose
analysis set the controller flag. -/
def analyzeEndpoints (files : List JavaFile) : AnalyzeResult :=
  files.foldl
    (fun acc f =>
      match f.content with
      | .error _ => acc
      | .ok content =>
        let r := analyzeJavaFile f.path content
        { endpoints := acc.endpoints ++ r.endpoints,
          controllerCount := acc.controllerCount + (if r.isController then 1 else 0) })
    ⟨[], 0⟩

end Analyzer

namespace AsyncAnalyzer

/-- Endpoint record of `src/async-analyzer.js` (class `Endpoint`, eight
fields, with an optional module name defaulting to `null`). -/
structure Endpoint where
  method : Str
  path : Str
  className : Str
  methodName : Str
  filePath : Str
  lineNumber : Nat
  parameters : List Str
  moduleName : Option Str
deriving DecidableEq

/-- `AsyncAnalyzer.buildFullPath` from `src/async-analyzer.js`
(lines 356-368): fragments equal to `/` or empty contribute nothing; a `/`
separator is appended whenever the accumulated path is non-empty and does
not already end with `/`; the method fragment is appended verbatim. -/
def buildFullPath (classPath methodPath : Str) : Str :=
  let f0 : Str := []
  let f1 := if !classPath.isEmpty && classPath != S "/" then f0 ++ classPath else f0
  let f2 :=
    if !methodPath.isEmpty && methodPath != S "/" then
      (if !f1.isEmpty && !(Js.jsEndsWith f1 (S "/")) then f1 ++ S "/" else f1) ++ methodPath
    else f1
  jsOrSlash f2

/-- Match `/@RequestMapping\s*\(\s*["']([^"']*)["']\s*\)/` exactly at the
start of `s` (this variant does require the closing parenthesis). -/
def rmAt (s : Str) : Option Str :=
  match Js.stripLit (S "@RequestMapping") s with
  | none => none
  | some t =>
    let t1 := t.drop (t.takeWhile Js.isSpaceChar).length
    match t1 with
    | '(' :: t2 =>
      match Rx.quoted t2 with
      | none => none
      | some (cap, t3) =>
        let t4 := t3.drop (t3.takeWhile Js.isSpaceChar).length
        match t4 with
        | ')' :: _ => some cap
        | _ => none
    | _ => none

/-- Leftmost match of the async request-mapping pattern. -/
def rmExec : Str → Option Str
  | [] => none
  | c :: rest =>
    match rmAt (c :: rest) with
    | some p => some p
    | none => rmExec rest

/-- Match `/@(Get|Post|Put|Delete|Patch)Mapping\s*\(\s*["']([^"']*)["']\s*\)/`
exactly at the start of `s` (the quoted argument is mandatory here). -/
def mapAt (s : Str) : Option (Verb × Str) :=
  match Js.stripLit (S "@") s with
  | none => none
  | some t0 =>
  match Rx.matchVerb t0 with
  | none => none
  | some (v, t1) =>
  match Js.stripLit (S "Mapping") t1 with
  | none => none
  | some t2 =>
    let t3 := t2.drop (t2.takeWhile Js.isSpaceChar).length
    match t3 with
    | '(' :: t4 =>
      match Rx.quoted t4 with
      | none => none
      | some (cap, t5) =>
        let t6 := t5.drop (t5.takeWhile Js.isSpaceChar).length
        match t6 with
        | ')' :: _ => some (v, cap)
        | _ => none
    | _ => none

/-- Leftmost match of the async verb-mapping pattern. -/
def mapExec : Str → Option (Verb × Str)
  | [] => none
  | c :: rest =>
    match mapAt (c :: rest) with
    | some r => some r
    | none => mapExec rest

/-- Match `(?:\w+\s+)*(\w+)\s*\(` at the start of `t` with the greedy star's
backtracking: on failure of a deeper iteration, the current word run becomes
the capture and a `(` is expected after the whitespace.  Fuel decreases with
every iteration; `t.length` fuel is always sufficient. -/
def starName (fuel : Nat) (t : Str) : Option Str :=
  match fuel with
  | 0 => none
  | fuel + 1 =>
    let w := t.takeWhile Js.isWordChar
    if w.isEmpty then none
    else
      let t1 := t.drop w.length
      let sp := t1.takeWhile Js.isSpaceChar
      if sp.isEmpty then
        match t1 with
        | '(' :: _ => some w
        | _ => none
      else
        match starName fuel (t1.drop sp.length) with
        | some nm => some nm
        | none =>
          match t1.drop sp.length with
          | '(' :: _ => some w
          | _ => none

/-- Match `/(?:public|private|protected)?\s+(?:\w+\s+)*(\w+)\s*\(/` exactly
at the start of `s`: at least one whitespace character is required after the
(possibly empty) visibility keyword. -/
def methodAt (s : Str) : Option Str :=
  let core : Str → Option Str := fun t =>
    let sp := t.takeWhile Js.isSpaceChar
    if sp.isEmpty then none
    else starName t.length (t.drop sp.length)
  match Analyzer.visSplit s with
  | some t =>
    match core t with
    | some r => some r
    | none => core s
  | none => core s

/-- Leftmost match of the async method-declaration pattern. -/
def methodExec : Str → Option Str
  | [] => none
  | c :: rest =>
    match methodAt (c :: rest) with
    | some r => some r
    | none => methodExec rest

/-- Mutable scan state of `parseWithRegex`. -/
structure ScanState where
  currentClass : Str
  classBasePath : Str
  isController : Bool
deriving DecidableEq

/-- Initial scan state. -/
def initState : ScanState := ⟨[], [], false⟩

/-- One line of the `parseWithRegex` loop body: unlike the basic analyzer,
the four tests run sequentially on every line (no `continue`), and the
verb-mapping match is gated on the controller flag. -/
def asyncLine (st : ScanState) (t : Str) : ScanState × Option (Verb × Str) :=
  let st1 :=
    match Rx.classExec t with
    | some w => { st with currentClass := w }
    | none => st
  let st2 := if Rx.controllerTest t then { st1 with isController := true } else st1
  let st3 :=
    match rmExec t with
    | some p => { st2 with classBasePath := p }
    | none => st2
  match mapExec t with
  | some (v, mp) => if st3.isController then (st3, some (v, mp)) else (st3, none)
  | none => (st3, none)

/-- Method-name lookahead of `parseWithRegex`
(`for j = i+1; j < min(lines.length, i+3)`): scan the next two lines,
stopping at the first method-declaration match. -/
def lookahead (rest : List Str) : Option Str :=
  match rest with
  | [] => none
  | l1 :: rest2 =>
    match methodExec (Js.trim l1) with
    | some nm => some nm
    | none =>
      match rest2 with
      | [] => none
      | l2 :: _ => methodExec (Js.trim l2)

/-- The `parseWithRegex` line loop: an endpoint is emitted only when a
non-empty method name was found in the lookahead window (strict mode). -/
def scanAsync (filePath : Str) (moduleName : Option Str) :
    Nat → ScanState → List Str → List Endpoint × Bool
  | _, st, [] => ([], st.isController)
  | i, st, line :: rest =>
    let p := asyncLine st (Js.trim line)
    let tail := scanAsync filePath moduleName (i + 1) p.1 rest
    match p.2 with
    | none => tail
    | some (v, mp) =>
      let methodName := (lookahead rest).getD []
      if methodName.isEmpty then tail
      else
        (⟨v.upper, buildFullPath p.1.classBasePath mp, p.1.currentClass,
          methodName, filePath, i + 1, [], moduleName⟩ :: tail.1, tail.2)

/-- Result of parsing one file. -/
structure FileResult where
  endpoints : List Endpoint
  isController : Bool
deriving DecidableEq

/-- `AsyncAnalyzer.parseWithRegex` from `src/async-analyzer.js`
(lines 290-351). -/
def parseWithRegex (content filePath : Str) (moduleName : Option Str) : FileResult :=
  let r := scanAsync filePath moduleName 0 initState (Js.splitOn '\n' content)
  ⟨r.1, r.2⟩

end AsyncAnalyzer

/-- Build the member list of JS `new Set(l)`: insertion order, first
occurrence kept. -/
def jsSetList (l : List Str) : List Str :=
  l.foldl (fun acc x => if x ∈ acc then acc else acc ++ [x]) []

/-- JS `new Set(l).size`. -/
def jsSetSize (l : List Str) : Nat := (jsSetList l).length

/-- Number of newline characters in `s`. -/
def countNl (s : Str) : Nat := s.countP (fun c => c == '\n')

namespace OptimizedAnalyzer

/-- Endpoint object produced by `parseEndpointsWithRegex` in
`src/optimized-analyzer.js` (a plain object with these seven fields; the
module name is attached later by the caller). -/
structure Endpoint where
  method : Str
  path : Str
  className : Str
  methodName : Str
  filePath : Str
  lineNumber : Nat
  parameters : List Str
deriving DecidableEq

/-- `combinePaths` from `src/optimized-analyzer.js` (lines 289-298). -/
def combinePaths (classPath methodPath : Str) : Str :=
  if classPath.isEmpty || classPath == S "/" then methodPath
  else
    let classClean := if Js.jsEndsWith classPath (S "/") then classPath.dropLast else classPath
    let methodClean := if Js.jsStartsWith methodPath (S "/") then methodPath else '/' :: methodPath
    classClean ++ methodClean

/-- `content.match(/@RestController[\s\S]*?class\s+(\w+)/)`: the first
`class\s+(\w+)` occurrence after the first `@RestController` occurrence. -/
def optClassExec (content : Str) : Option Str :=
  match Js.findSub (S "@RestController") content with
  | none => none
  | some rest => Rx.classExec rest

/-- Match `/@RequestMapping\("([^"]+)"\)/` exactly at the start of `s`
(strict: double quotes, non-empty capture, no interior whitespace). -/
def optRmAt (s : Str) : Option Str :=
  match Js.stripLit (S "@RequestMapping(\"") s with
  | none => none
  | some t =>
    let cap := t.takeWhile (fun c => c != '"')
    if cap.isEmpty then none
    else
      match t.drop cap.length with
      | '"' :: ')' :: _ => some cap
      | _ => none

/-- Leftmost match of the strict request-mapping pattern. -/
def optRmExec : Str → Option Str
  | [] => none
  | c :: rest =>
    match optRmAt (c :: rest) with
    | some p => some p
    | none => optRmExec rest

/-- Match `@(Get|Post|Put|Delete|Patch)Mapping\("([^"]+)"\)` exactly at the
start of `s`; returns the verb, the path capture, the number of characters
consumed, and the remainder. -/
def optMapHere (s : Str) : Option (Verb × Str × Nat × Str) :=
  match Js.stripLit (S "@") s with
  | none => none
  | some t0 =>
  match Rx.matchVerb t0 with
  | none => none
  | some (v, t1) =>
  match Js.stripLit (S "Mapping(\"") t1 with
  | none => none
  | some t2 =>
    let cap := t2.takeWhile (fun c => c != '"')
    if cap.isEmpty then none
    else
      match t2.drop cap.length with
      | '"' :: ')' :: rest => some (v, cap, 1 + v.fragLen + 9 + cap.length + 2, rest)
      | _ => none

/-- The `[\s\S]*?(\w+)\s*\(` suffix of the global method pattern: earliest
position holding a non-empty word run followed by optional whitespace and
`(`; returns the capture, the number of characters consumed up to and
including the `(`, and the remainder. -/
def findName : Str → Option (Str × Nat × Str)
  | [] => none
  | c :: rest =>
    if Js.isWordChar c then
      let w := (c :: rest).takeWhile Js.isWordChar
      let t1 := (c :: rest).drop w.length
      let sp := t1.takeWhile Js.isSpaceChar
      match t1.drop sp.length with
      | '(' :: r2 => some (w, w.length + sp.length + 1, r2)
      | _ => (findName rest).map (fun r => (r.1, r.2.1 + 1, r.2.2))
    else (findName rest).map (fun r => (r.1, r.2.1 + 1, r.2.2))

/-- The global-flag loop over
`/@(Get|Post|Put|Delete|Patch)Mapping\("([^"]+)"\)[\s\S]*?(\w+)\s*\(/g`:
each iteration resumes at the character after the previous match.  If no
name-parenthesis follows a mapping occurrence then no later full match can
exist either (the later search space is a suffix), so the loop ends.  Fuel
decreases every step; `s.length + 1` fuel is always sufficient. -/
def optScan : Nat → Str → Nat → List (Nat × Verb × Str × Str)
  | 0, _, _ => []
  | _, [], _ => []
  | fuel + 1, c :: rest, idx =>
    match optMapHere (c :: rest) with
    | some (v, mp, k, rest2) =>
      match findName rest2 with
      | some (nm, k2, rest3) => (idx, v, mp, nm) :: optScan fuel rest3 (idx + k + k2)
      | none => []
    | none => optScan fuel rest (idx + 1)

/-- `parseEndpointsWithRegex` from `src/optimized-analyzer.js`
(lines 232-284): there is no controller gating — endpoints are emitted for
every global-pattern match; the class name is taken from the (possibly
missing) `@RestController ... class` match and the class-level path from the
strict request-mapping match.  (The `package` capture is also computed by
the source but contributes nothing to the produced endpoints.) -/
def parseEndpointsWithRegex (content filePath : Str) : List Endpoint :=
  let className := (optClassExec content).getD []
  let classLevelPath := (optRmExec content).getD []
  (optScan (content.length + 1) content 0).map (fun m =>
    ⟨m.2.1.upper, combinePaths classLevelPath m.2.2.1, className, m.2.2.2,
     filePath, 1 + countNl (content.take m.1), []⟩)

/-- Whole-run aggregate result of the batched/optimized mode. -/
structure AnalyzeResult where
  endpoints : List Endpoint
  controllerCount : Nat
deriving DecidableEq

/-- `OptimizedAnalyzer.analyzeEndpoints` (lines 330-364) on the regex
fallback path: per-file results are concatenated in file order (batching by
10 preserves concatenation order), and `controllerCount` is
`new Set(endpoints.map(ep => ep.className)).size`.  Files are given as
`(path, content)` pairs; the AST subprocess is an external jar, and its
failure triggers the embedded regex fallback for that file. -/
def analyzeEndpoints (files : List (Str × Str)) : AnalyzeResult :=
  let endpoints :=
    files.foldl (fun acc fc => acc ++ parseEndpointsWithRegex fc.2 fc.1) []
  ⟨endpoints, jsSetSize (endpoints.map Endpoint.className)⟩

end OptimizedAnalyzer

namespace AsyncAnalyzer

/-- Whole-run aggregate result of the queued/async mode. -/
structure AnalyzeResult where
  endpoints : List Endpoint
  controllerCount : Nat
deriving DecidableEq

/-- `AsyncAnalyzer.analyzeEndpointsAsync` (lines 393-435) on the regex
fallback path: the queue is drained in task order, per-file endpoint lists
are concatenated, and `controllerCount` is
`new Set(endpoints.map(e => e.className)).size`. -/
def analyzeEndpointsAsync (files : List (Str × Str)) : AnalyzeResult :=
  let endpoints :=
    files.foldl (fun acc fc => acc ++ (parseWithRegex fc.2 fc.1 none).endpoints) []
  ⟨endpoints, jsSetSize (endpoints.map Endpoint.className)⟩

end AsyncAnalyzer

namespace ModuleAnalyzer

/-- `ensureLeadingSlash` of the module-aware analyzer (unnamed source,
lines 332-340; textually identical to the basic analyzer's). -/
def ensureLeadingSlash (path : Str) : Str :=
  if path.isEmpty then S "/"
  else if !(Js.jsStartsWith path (S "/")) then '/' :: path
  else path

/-- `buildFullPath` of the module-aware analyzer (unnamed source,
lines 302-325): unlike the basic analyzer's, a `/` separator is appended
whenever the base does not already end with `/`, and the method fragment's
single leading slash is removed before appending. -/
def buildFullPath (basePath methodPath : Str) : Str :=
  if basePath.isEmpty && methodPath.isEmpty then S "/"
  else if basePath.isEmpty then ensureLeadingSlash methodPath
  else if methodPath.isEmpty then ensureLeadingSlash basePath
  else
    let f0 := ensureLeadingSlash basePath
    let f1 := if !(Js.jsEndsWith f0 (S "/")) then f0 ++ S "/" else f0
    f1 ++ stripLeadingSlash methodPath

end ModuleAnalyzer

namespace IndexManager

/-- A discovered source file as seen by `generateProjectHash`: its path and
the result of `fs.statSync` — `none` when the stat call throws (such files
are skipped by the `catch { continue }`).  The modification time is modelled
by its ISO string and the size by its decimal string, exactly the byte
sequences fed to the hasher. -/
structure FileRec where
  path : Str
  stat : Option (Str × Str)
deriving DecidableEq

/-- The byte sequence fed to the MD5 hasher by `generateProjectHash`
(`src/index-manager.js` lines 36-58): the project path, then for each
discovered file (in scanner enumeration order, skipping stat failures) its
path, mtime ISO string and size string.  The MD5 digest is a deterministic
function of exactly this sequence, so it is modelled by the sequence
itself. -/
def hashInput (projectPath : Str) (files : List FileRec) : Str :=
  files.foldl
    (fun acc f =>
      match f.stat with
      | none => acc
      | some st => acc ++ f.path ++ st.1 ++ st.2)
    projectPath

/-- `generateProjectHash`: the file scan may itself fail
(`Scanner.scanJavaFiles` throwing), in which case the wrapped error is
rethrown. -/
def generateProjectHash (projectPath : Str) (scan : Except Str (List FileRec)) :
    Except Str Str :=
  match scan with
  | .error e => .error e
  | .ok files => .ok (hashInput projectPath files)

/-- The `(path, mtime, size)` tuples that actually contribute to the hash:
files whose stat succeeded, in enumeration order. -/
def contrib (files : List FileRec) : List (Str × Str × Str) :=
  files.filterMap (fun f => f.stat.map (fun st => (f.path, st.1, st.2)))

/-- Endpoint record handed to `saveIndex`, following the spec's data model
(the module-aware analyzers produce this eight-field shape). -/
structure Endpoint where
  method : Str
  path : Str
  className : Str
  methodName : Str
  filePath : Str
  lineNumber : Nat
  parameters : List Str
  moduleName : Option Str
deriving DecidableEq

/-- A row of the `endpoints` table created by `saveIndex`
(`src/index-manager.js` lines 81-92): seven columns — there is no
`module_name` column. -/
structure Row where
  method : Str
  path : Str
  className : Str
  methodName : Str
  filePath : Str
  lineNumber : Nat
  parameters : List Str
deriving DecidableEq

/-- The seven columns `saveIndex` inserts for an endpoint (the parameter
list is serialised with `JSON.stringify` and parsed back on read, which
round-trips a list of strings). -/
def toRow (e : Endpoint) : Row :=
  ⟨e.method, e.path, e.className, e.methodName, e.filePath, e.lineNumber, e.parameters⟩

/-- Statistics row stored alongside the endpoint list. -/
structure Stats where
  totalEndpoints : Nat
  methodCounts : List (Str × Nat)
  totalJavaFiles : Nat
  controllerFiles : Nat
  scanDurationMs : Nat
deriving DecidableEq

/-- Metadata row of the snapshot. -/
structure MetaRow where
  version : Str
  projectPath : Str
  generatedAt : Str
  projectHash : Str
  stats : Stats
deriving DecidableEq

/-- A stored snapshot: one metadata row plus the endpoint rows in insertion
order.  The whole store is `Option Store`: `none` when no snapshot exists. -/
structure Store where
  meta : MetaRow
  rows : List Row
deriving DecidableEq

/-- `saveIndex` (`src/index-manager.js` lines 110-186): `DELETE FROM
metadata; DELETE FROM endpoints` followed by inserting the new metadata row
and the endpoint rows in list order — any prior snapshot is replaced
entirely. -/
def saveIndex (db : Option Store) (projectPath : Str) (endpoints : List Endpoint)
    (stats : Stats) (projectHash now : Str) : Option Store :=
  let _ := db
  some ⟨⟨S "1.0", projectPath, now, projectHash, stats⟩, endpoints.map toRow⟩

/-- An endpoint reconstructed from a stored row: the store has no
`module_name` column, so the module name of a loaded endpoint can only be
the default `null`. -/
def fromRow (r : Row) : Endpoint :=
  ⟨r.method, r.path, r.className, r.methodName, r.filePath, r.lineNumber, r.parameters, none⟩

/-- Modelled from the spec: `load(projectPath) -> endpoints | null` returns
the stored endpoint list, or null if no snapshot exists (§4.4).
`IndexManager.loadIndex` is called by `TUI.loadFromCache` and other UI
callers but its definition is absent from the sources; it can only return
the columns the store persists. -/
def loadIndex (db : Option Store) : Option (List Endpoint) :=
  db.map (fun s => s.rows.map fromRow)

/-- The metadata fields consulted by `isIndexValid`. -/
structure IdxMeta where
  projectPath : Str
  projectHash : Str
deriving DecidableEq

/-- `isIndexValid` (`src/index-manager.js` lines 249-261): a project-path
mismatch is invalid; the current fingerprint is then recomputed and
compared, and any error during recomputation is caught and mapped to
`false` — the function always returns a boolean, never propagating the
error. -/
def isIndexValid (projectPath : Str) (metadata : IdxMeta)
    (scan : Except Str (List FileRec)) : Bool :=
  if metadata.projectPath != projectPath then false
  else
    match generateProjectHash projectPath scan with
    | .error _ => false
    | .ok currentHash => currentHash == metadata.projectHash

end IndexManager

/-- One parsed JSON object of the AST engine's line-delimited output, shape
`{httpMethod, path, className, methodName, lineNumber?, parameters?}`
(`lineNumber` and `parameters` optional). -/
structure AstJson where
  httpMethod : Str
  path : Str
  className : Str
  methodName : Str
  lineNumber : Option Nat
  parameters : Option (List Str)
deriving DecidableEq

/-- JS `ep.lineNumber || 1`: missing — or the falsy number 0 — becomes 1. -/
def jsOrOne : Option Nat → Nat
  | none => 1
  | some n => if n = 0 then 1 else n

/-- Conversion of parsed AST output to endpoints in the optimized mode
(`src/optimized-analyzer.js` lines 142-154): entries with a falsy
`httpMethod` or `path` are dropped; `lineNumber` defaults to 1 and
`parameters` to `[]`. -/
def optConvert (parsed : List AstJson) (filePath : Str) : List OptimizedAnalyzer.Endpoint :=
  parsed.filterMap (fun ep =>
    if !ep.httpMethod.isEmpty && !ep.path.isEmpty then
      some ⟨ep.httpMethod, ep.path, ep.className, ep.methodName, filePath,
            jsOrOne ep.lineNumber, ep.parameters.getD []⟩
    else none)

/-- Conversion of parsed AST output to endpoints in the async mode
(`src/async-analyzer.js` lines 253-263): every entry is kept; `lineNumber`
is always 1 and `parameters` always `[]`. -/
def asyncConvert (parsed : List AstJson) (filePath : Str) (moduleName : Option Str) :
    List AsyncAnalyzer.Endpoint :=
  parsed.map (fun ep =>
    ⟨ep.httpMethod, ep.path, ep.className, ep.methodName, filePath, 1, [], moduleName⟩)

/-- The extraction-semantics projection of an endpoint: HTTP verb, URL path,
class name and method name. -/
def optProj (e : OptimizedAnalyzer.Endpoint) : Str × Str × Str × Str :=
  (e.method, e.path, e.className, e.methodName)

/-- The extraction-semantics projection of an async-mode endpoint. -/
def asyncProj (e : AsyncAnalyzer.Endpoint) : Str × Str × Str × Str :=
  (e.method, e.path, e.className, e.methodName)

/-!
## Theorems

Helper lemmas come first, then one theorem per claim (with witness or
counterexample theorems where required).
-/

/-- C1 For base `"/api"` and method `"/x"` the main analyzer's
`buildFullPath` yields `"/apix"` (separator dropped, leading slash of the
method fragment stripped) and the async analyzer's yields `"/api//x"`; for
`("api", "x")` the async analyzer's yields `"api/x"`, which does not start
with `/`.  Only the module-aware analyzer's implementation returns
`"/api/x"` in both cases, as the spec's contract demands.  The empty-empty
collapse to `"/"` holds for all three. -/
theorem c1_buildFullPath_eval :
    Analyzer.buildFullPath (S "/api") (S "/x") = S "/apix" ∧
    Analyzer.buildFullPath (S "api") (S "x") = S "/api/x" ∧
    Analyzer.buildFullPath [] [] = S "/" ∧
    AsyncAnalyzer.buildFullPath (S "/api") (S "/x") = S "/api//x" ∧
    AsyncAnalyzer.buildFullPath (S "api") (S "x") = S "api/x" ∧
    Js.jsStartsWith (AsyncAnalyzer.buildFullPath (S "api") (S "x")) (S "/") = false ∧
    AsyncAnalyzer.buildFullPath [] [] = S "/" ∧
    ModuleAnalyzer.buildFullPath (S "/api") (S "/x") = S "/api/x" ∧
    ModuleAnalyzer.buildFullPath (S "api") (S "x") = S "/api/x" ∧
    ModuleAnalyzer.buildFullPath [] [] = S "/" := by
  decide

/-- C10 The leading-slash normalizer maps `""` to `"/"`, prepends `/` to
any string not starting with `/`, returns strings already starting with `/`
unchanged, hence always returns a string starting with `/` and is
idempotent; the module-aware analyzer's copy is the same function. -/
theorem c10_ensureLeadingSlash_spec :
    (∀ s : Str, Js.jsStartsWith (Analyzer.ensureLeadingSlash s) (S "/") = true) ∧
    Analyzer.ensureLeadingSlash [] = S "/" ∧
    (∀ s : Str, Js.jsStartsWith s (S "/") = false →
      Analyzer.ensureLeadingSlash s = '/' :: s) ∧
    (∀ s : Str, Js.jsStartsWith s (S "/") = true → Analyzer.ensureLeadingSlash s = s) ∧
    (∀ s : Str,
      Analyzer.ensureLeadingSlash (Analyzer.ensureLeadingSlash s) =
        Analyzer.ensureLeadingSlash s) ∧
    (∀ s : Str, ModuleAnalyzer.ensureLeadingSlash s = Analyzer.ensureLeadingSlash s) := by
  have h4 : ∀ s : Str, Js.jsStartsWith s (S "/") = true →
      Analyzer.ensureLeadingSlash s = s := by
    intro s h
    cases s with
    | nil => exact absurd h (by decide)
    | cons c t =>
      unfold Analyzer.ensureLeadingSlash
      simp [h]
  have hstart : ∀ s : Str, Js.jsStartsWith (Analyzer.ensureLeadingSlash s) (S "/") = true := by
    intro s
    unfold Analyzer.ensureLeadingSlash
    by_cases h0 : (s : Str).isEmpty
    · simp [h0]
      decide
    · by_cases h1 : Js.jsStartsWith s (S "/")
      · simp [h0, h1]
      · have h0a : List.isEmpty s = false := by
          simpa [Bool.not_eq_true] using h0
        have h1b : List.isPrefixOf (S "/") s = false := by
          cases hb : List.isPrefixOf (S "/") s with
          | false => rfl
          | true => exact absurd hb h1
        simp [h0a, h1b, Js.jsStartsWith]
        try exact ⟨s, rfl⟩
  refine ⟨hstart, by decide, ?_, h4, fun s => h4 _ (hstart s), fun s => rfl⟩
  intro s h
  cases s with
  | nil => decide
  | cons c t =>
    unfold Analyzer.ensureLeadingSlash
    simp [h]

/-- C10 witness: the theorem's conditional clauses discharged at the
concrete inputs `"api"` and `"/api"`. -/
theorem c10_witness :
    Analyzer.ensureLeadingSlash (S "api") = '/' :: S "api" ∧
    Analyzer.ensureLeadingSlash (S "/api") = S "/api" :=
  ⟨c10_ensureLeadingSlash_spec.2.2.1 (S "api") (by decide),
   c10_ensureLeadingSlash_spec.2.2.2.1 (S "/api") (by decide)⟩

/-- The hasher input is the project path followed by the concatenated
`(path, mtime, size)` tuples of the stat-successful files, in enumeration
order. -/
theorem hashInput_eq_contrib (fs : List IndexManager.FileRec) :
    ∀ p : Str,
      IndexManager.hashInput p fs =
        p ++ ((IndexManager.contrib fs).map (fun t => t.1 ++ t.2.1 ++ t.2.2)).flatten := by
  induction fs with
  | nil =>
    intro p
    simp [IndexManager.hashInput, IndexManager.contrib]
  | cons f fs ih =>
    intro p
    cases hst : f.stat with
    | none =>
      simp only [IndexManager.hashInput, List.foldl_cons, hst]
      simpa [IndexManager.hashInput, IndexManager.contrib, hst] using ih p
    | some st =>
      simp only [IndexManager.hashInput, List.foldl_cons, hst]
      have := ih (p ++ f.path ++ st.1 ++ st.2)
      simp only [IndexManager.hashInput] at this
      rw [this]
      simp [IndexManager.contrib, hst, List.append_assoc]

/-- C4 counterexample: permuting the enumeration order of two discovered
files changes the byte sequence fed to the running MD5 digest, hence the
fingerprint; the claim asserts the aggregation is order-independent. -/
theorem c4_counterexample :
    List.Perm
      [(⟨S "b.java", some (S "2024-01-02T00:00:00.000Z", S "20")⟩ : IndexManager.FileRec),
       ⟨S "a.java", some (S "2024-01-01T00:00:00.000Z", S "10")⟩]
      [⟨S "a.java", some (S "2024-01-01T00:00:00.000Z", S "10")⟩,
       ⟨S "b.java", some (S "2024-01-02T00:00:00.000Z", S "20")⟩] ∧
    IndexManager.generateProjectHash (S "/p")
        (.ok [⟨S "a.java", some (S "2024-01-01T00:00:00.000Z", S "10")⟩,
              ⟨S "b.java", some (S "2024-01-02T00:00:00.000Z", S "20")⟩]) ≠
      IndexManager.generateProjectHash (S "/p")
        (.ok [⟨S "b.java", some (S "2024-01-02T00:00:00.000Z", S "20")⟩,
              ⟨S "a.java", some (S "2024-01-01T00:00:00.000Z", S "10")⟩]) := by
  constructor
  · exact List.Perm.swap _ _ _
  · simp only [IndexManager.generateProjectHash, ne_eq, Except.ok.injEq]
    decide

/-- C4 amended: the fingerprint is a deterministic function of the project
path and the sequence of stat-successful `(path, mtime, size)` tuples in the
scanner's enumeration order (files whose stat fails are skipped); it is not
order-independent. -/
theorem c4_fingerprint_deterministic :
    (∀ (p : Str) (fs1 fs2 : List IndexManager.FileRec),
      IndexManager.contrib fs1 = IndexManager.contrib fs2 →
      IndexManager.generateProjectHash p (.ok fs1) =
        IndexManager.generateProjectHash p (.ok fs2)) ∧
    (∀ (p : Str) (f : IndexManager.FileRec) (fs : List IndexManager.FileRec),
      f.stat = none →
      IndexManager.generateProjectHash p (.ok (f :: fs)) =
        IndexManager.generateProjectHash p (.ok fs)) := by
  constructor
  · intro p fs1 fs2 h
    simp only [IndexManager.generateProjectHash]
    rw [hashInput_eq_contrib fs1 p, hashInput_eq_contrib fs2 p, h]
  · intro p f fs h
    simp only [IndexManager.generateProjectHash]
    rw [hashInput_eq_contrib (f :: fs) p, hashInput_eq_contrib fs p]
    simp [IndexManager.contrib, h]

/-- C4 witness: the theorem's clauses discharged at concrete inputs — a
stat-failed file contributes nothing, and two enumerations with equal
contributing tuples hash alike. -/
theorem c4_witness :
    IndexManager.generateProjectHash (S "p")
        (.ok [⟨S "a", some (S "t", S "1")⟩, ⟨S "e", none⟩]) =
      IndexManager.generateProjectHash (S "p") (.ok [⟨S "a", some (S "t", S "1")⟩]) :=
  c4_fingerprint_deterministic.1 (S "p")
    [⟨S "a", some (S "t", S "1")⟩, ⟨S "e", none⟩]
    [⟨S "a", some (S "t", S "1")⟩] (by decide)

/-- C9 The cache-validity check never propagates an error: a failed scan
(hence a failed fingerprint recomputation) yields `false`, and a successful
recomputation yields the comparison of the fresh hash with the stored one
(guarded by the stored project path matching). -/
theorem c9_isIndexValid_spec :
    (∀ (p : Str) (m : IndexManager.IdxMeta) (e : Str),
      IndexManager.isIndexValid p m (.error e) = false) ∧
    (∀ (p : Str) (m : IndexManager.IdxMeta)
       (scan : Except Str (List IndexManager.FileRec)) (h : Str),
      IndexManager.generateProjectHash p scan = .ok h →
      IndexManager.isIndexValid p m scan =
        ((m.projectPath == p) && (h == m.projectHash))) := by
  constructor
  · intro p m e
    simp only [IndexManager.isIndexValid, IndexManager.generateProjectHash]
    split <;> rfl
  · intro p m scan h hok
    simp only [IndexManager.isIndexValid, hok]
    by_cases hp : m.projectPath == p
    · simp [hp, bne]
    · have hp2 : (m.projectPath == p) = false := by
        cases hb : m.projectPath == p
        · rfl
        · exact absurd hb hp
      simp [bne, hp2]

/-- C9 witness: the success clause discharged at a concrete scan result. -/
theorem c9_witness :
    IndexManager.isIndexValid (S "p") ⟨S "p", S "pat1"⟩
        (.ok [⟨S "a", some (S "t", S "1")⟩]) =
      ((S "p" == S "p") && (S "pat1" == S "pat1")) :=
  c9_isIndexValid_spec.2 (S "p") ⟨S "p", S "pat1"⟩
    (.ok [⟨S "a", some (S "t", S "1")⟩]) (S "pat1") (by rfl)

/-- C3 counterexample: saving an endpoint that carries a module name and
loading immediately does not return the saved list — the `endpoints` table
has no module_name column, so the module label is lost in the stored
snapshot. -/
theorem c3_counterexample :
    IndexManager.loadIndex
        (IndexManager.saveIndex none (S "/p")
          [⟨S "GET", S "/", S "C", S "m", S "f", 1, [], some (S "m1")⟩]
          ⟨1, [], 1, 1, 0⟩ (S "h") (S "t")) ≠
      some [⟨S "GET", S "/", S "C", S "m", S "f", 1, [], some (S "m1")⟩] := by
  decide

/-- C3 amended: save followed immediately by load returns the saved endpoint
list in the same order with the seven persisted fields intact and the
unpersisted `moduleName` reset to `none`; load with no stored snapshot
returns null. -/
theorem c3_save_load_roundtrip :
    (∀ (db : Option IndexManager.Store) (p : Str) (l : List IndexManager.Endpoint)
       (stats : IndexManager.Stats) (h now : Str),
      IndexManager.loadIndex (IndexManager.saveIndex db p l stats h now) =
        some (l.map (fun e => { e with moduleName := none }))) ∧
    IndexManager.loadIndex none = none := by
  constructor
  · intro db p l stats h now
    have hfun : IndexManager.fromRow ∘ IndexManager.toRow =
        (fun e : IndexManager.Endpoint => { e with moduleName := none }) :=
      funext (fun e => rfl)
    simp [IndexManager.saveIndex, IndexManager.loadIndex, List.map_map, hfun]
  · rfl

/-- The JS `Set` insertion fold keeps a duplicate-free list whose element
set is the accumulator's joined with the input's. -/
theorem jsSetFold_spec (l : List Str) :
    ∀ acc : List Str, acc.Nodup →
      (l.foldl (fun a x => if x ∈ a then a else a ++ [x]) acc).Nodup ∧
      (l.foldl (fun a x => if x ∈ a then a else a ++ [x]) acc).toFinset =
        acc.toFinset ∪ l.toFinset := by
  induction l with
  | nil =>
    intro acc h
    exact ⟨h, by simp⟩
  | cons x l ih =>
    intro acc h
    by_cases hx : x ∈ acc
    · simp only [List.foldl_cons, if_pos hx]
      obtain ⟨h1, h2⟩ := ih acc h
      refine ⟨h1, ?_⟩
      rw [h2]
      have hxf : x ∈ acc.toFinset := List.mem_toFinset.mpr hx
      ext y
      simp [List.mem_toFinset]
      aesop
    · simp only [List.foldl_cons, if_neg hx]
      have hnd : (acc ++ [x]).Nodup := by
        simp [List.nodup_append, h, hx]
      obtain ⟨h1, h2⟩ := ih (acc ++ [x]) hnd
      refine ⟨h1, ?_⟩
      rw [h2]
      ext y
      simp [List.mem_toFinset]
      aesop

/-- `new Set(l).size` is the number of distinct values in `l`. -/
theorem jsSetSize_eq_card (l : List Str) : jsSetSize l = l.toFinset.card := by
  obtain ⟨h1, h2⟩ := jsSetFold_spec l [] (by simp)
  unfold jsSetSize jsSetList
  rw [← List.toFinset_card_of_nodup h1, h2]
  simp

/-- C6 counterexample: a file whose class is annotated `@RestController`
but declares no endpoint makes the basic analyzer report
`controllerCount = 1`, while the number of distinct `className` values
across the (empty) emitted endpoint list is 0. -/
theorem c6_counterexample :
    (Analyzer.analyzeEndpoints
        [⟨S "f", .ok (S "@RestController\nclass Foo")⟩]).controllerCount = 1 ∧
    (((Analyzer.analyzeEndpoints
        [⟨S "f", .ok (S "@RestController\nclass Foo")⟩]).endpoints.map
          Analyzer.Endpoint.className).toFinset.card) = 0 := by
  constructor <;> decide

/-- C6 amended: for the optimized and async analyzers, `controllerCount`
equals the number of distinct `className` values across the emitted
endpoints; the basic analyzer instead counts the files whose scan set the
controller flag, which can differ (a controller file with zero endpoints). -/
theorem c6_controllerCount_distinct :
    (∀ files : List (Str × Str),
      (OptimizedAnalyzer.analyzeEndpoints files).controllerCount =
        ((OptimizedAnalyzer.analyzeEndpoints files).endpoints.map
          OptimizedAnalyzer.Endpoint.className).toFinset.card) ∧
    (∀ files : List (Str × Str),
      (AsyncAnalyzer.analyzeEndpointsAsync files).controllerCount =
        ((AsyncAnalyzer.analyzeEndpointsAsync files).endpoints.map
          AsyncAnalyzer.Endpoint.className).toFinset.card) := by
  exact ⟨fun files => jsSetSize_eq_card _, fun files => jsSetSize_eq_card _⟩

/-- A line without a controller annotation leaves the basic analyzer's
controller flag unchanged, and on a non-controller state it emits no
verb-mapping match (the gate precedes the mapping test). -/
theorem basicLine_gate (st : Analyzer.ScanState) (t : Str)
    (hc : Rx.controllerTest t = false) :
    (Analyzer.basicLine st t).1.isController = st.isController ∧
    (st.isController = false → (Analyzer.basicLine st t).2 = none) := by
  constructor
  · unfold Analyzer.basicLine
    rw [hc]
    repeat' split
    all_goals simp_all
  · intro h
    unfold Analyzer.basicLine
    rw [hc, h]
    repeat' split
    all_goals simp_all

/-- The basic analyzer scan emits nothing when no line carries a controller
annotation. -/
theorem scanBasic_gating (f : Str) :
    ∀ (lines : List Str) (i : Nat) (st : Analyzer.ScanState),
      st.isController = false →
      (∀ l ∈ lines, Rx.controllerTest (Js.trim l) = false) →
      (Analyzer.scanBasic f i st lines).1 = [] := by
  intro lines
  induction lines with
  | nil => intro i st h hl; rfl
  | cons line rest ih =>
    intro i st h hl
    have hc := hl line (List.mem_cons_self _ _)
    have hg := basicLine_gate st (Js.trim line) hc
    simp only [Analyzer.scanBasic]
    rw [hg.2 h]
    exact ih (i + 1) _ (hg.1.trans h) (fun l hm => hl l (List.mem_cons_of_mem _ hm))

/-- A line without a controller annotation leaves the async analyzer's
controller flag unchanged, and on a non-controller state it emits no
verb-mapping match. -/
theorem asyncLine_gate (st : AsyncAnalyzer.ScanState) (t : Str)
    (hc : Rx.controllerTest t = false) :
    (AsyncAnalyzer.asyncLine st t).1.isController = st.isController ∧
    (st.isController = false → (AsyncAnalyzer.asyncLine st t).2 = none) := by
  constructor
  · unfold AsyncAnalyzer.asyncLine
    rw [hc]
    repeat' split
    all_goals try (cases hst : st.isController)
    all_goals simp_all
  · intro h
    unfold AsyncAnalyzer.asyncLine
    rw [hc, h]
    repeat' split
    all_goals simp_all

/-- The async analyzer scan emits nothing when no line carries a controller
annotation. -/
theorem scanAsync_gating (f : Str) (m : Option Str) :
    ∀ (lines : List Str) (i : Nat) (st : AsyncAnalyzer.ScanState),
      st.isController = false →
      (∀ l ∈ lines, Rx.controllerTest (Js.trim l) = false) →
      (AsyncAnalyzer.scanAsync f m i st lines).1 = [] := by
  intro lines
  induction lines with
  | nil => intro i st h hl; rfl
  | cons line rest ih =>
    intro i st h hl
    have hc := hl line (List.mem_cons_self _ _)
    have hg := asyncLine_gate st (Js.trim line) hc
    simp only [AsyncAnalyzer.scanAsync]
    rw [hg.2 h]
    exact ih (i + 1) _ (hg.1.trans h) (fun l hm => hl l (List.mem_cons_of_mem _ hm))

/-- C2 amended: for the basic and async regex engines, a file whose lines
contain no controller annotation produces zero endpoints regardless of any
verb-mapping annotations present; the optimized analyzer's regex fallback
has no such gating (see the counterexample). -/
theorem c2_controller_gating :
    (∀ f content : Str,
      (∀ l ∈ Js.splitOn '\n' content, Rx.controllerTest (Js.trim l) = false) →
      (Analyzer.analyzeJavaFile f content).endpoints = []) ∧
    (∀ (content f : Str) (m : Option Str),
      (∀ l ∈ Js.splitOn '\n' content, Rx.controllerTest (Js.trim l) = false) →
      (AsyncAnalyzer.parseWithRegex content f m).endpoints = []) := by
  constructor
  · intro f content hl
    exact scanBasic_gating f (Js.splitOn '\n' content) 0 Analyzer.initState rfl hl
  · intro content f m hl
    exact scanAsync_gating f m (Js.splitOn '\n' content) 0 AsyncAnalyzer.initState rfl hl

/-- C2 witness: a file with a verb-mapping annotation but no controller
annotation — both gated engines produce zero endpoints from it. -/
theorem c2_witness :
    (Analyzer.analyzeJavaFile (S "f")
      (S "@GetMapping(\"/x\")\npublic String x()")).endpoints = [] ∧
    (AsyncAnalyzer.parseWithRegex
      (S "@GetMapping(\"/x\")\npublic String x()") (S "f") none).endpoints = [] :=
  ⟨c2_controller_gating.1 (S "f") (S "@GetMapping(\"/x\")\npublic String x()") (by decide),
   c2_controller_gating.2 (S "@GetMapping(\"/x\")\npublic String x()") (S "f") none (by decide)⟩

/-- C2 counterexample: the optimized analyzer's regex fallback emits an
endpoint from the very same controller-free file (its class name is the
empty string because no `@RestController ... class` match exists). -/
theorem c2_counterexample :
    OptimizedAnalyzer.parseEndpointsWithRegex
        (S "@GetMapping(\"/x\")\npublic String x()") (S "f") =
      [⟨S "GET", S "/x", [], S "x", S "f", 1, []⟩] ∧
    (∀ l ∈ Js.splitOn '\n' (S "@GetMapping(\"/x\")\npublic String x()"),
      Rx.controllerTest (Js.trim l) = false) := by
  constructor <;> decide

/-- The leading-slash normalizer never returns the empty string. -/
theorem ensureLeadingSlash_ne_nil (p : Str) : Analyzer.ensureLeadingSlash p ≠ [] := by
  unfold Analyzer.ensureLeadingSlash
  split
  · decide
  · split
    · simp
    · rename_i h1 h2
      cases p with
      | nil => simp at h1
      | cons c t => simp

/-- The basic analyzer's path composition never returns the empty string. -/
theorem buildFullPath_basic_ne_nil (b m : Str) : Analyzer.buildFullPath b m ≠ [] := by
  unfold Analyzer.buildFullPath
  split
  · decide
  · split
    · exact ensureLeadingSlash_ne_nil m
    · split
      · exact ensureLeadingSlash_ne_nil b
      · intro h
        rcases List.append_eq_nil.mp h with ⟨h1, _⟩
        split at h1
        · rcases List.append_eq_nil.mp h1 with ⟨h2, _⟩
          exact ensureLeadingSlash_ne_nil b h2
        · exact ensureLeadingSlash_ne_nil b h1

/-- The fallback-to-slash guard never returns the empty string. -/
theorem jsOrSlash_ne_nil (s : Str) : jsOrSlash s ≠ [] := by
  unfold jsOrSlash
  split
  · simp [S]
  · rename_i h
    cases s with
    | nil => simp at h
    | cons c t => simp

/-- The async analyzer's path composition never returns the empty string. -/
theorem buildFullPath_async_ne_nil (b m : Str) : AsyncAnalyzer.buildFullPath b m ≠ [] := by
  unfold AsyncAnalyzer.buildFullPath
  exact jsOrSlash_ne_nil _

/-- The uppercased verb is always one of the five HTTP verbs. -/
theorem verbUpper_mem (v : Verb) :
    Verb.upper v = S "GET" ∨ Verb.upper v = S "POST" ∨ Verb.upper v = S "PUT" ∨
      Verb.upper v = S "DELETE" ∨ Verb.upper v = S "PATCH" := by
  cases v <;> simp [Verb.upper]

/-- Every endpoint emitted by the basic analyzer scan has one of the five
uppercase verbs as its method and a non-empty path. -/
theorem scanBasic_invariant (f : Str) :
    ∀ (lines : List Str) (i : Nat) (st : Analyzer.ScanState) (e : Analyzer.Endpoint),
      e ∈ (Analyzer.scanBasic f i st lines).1 →
      (e.method = S "GET" ∨ e.method = S "POST" ∨ e.method = S "PUT" ∨
        e.method = S "DELETE" ∨ e.method = S "PATCH") ∧ e.path ≠ [] := by
  intro lines
  induction lines with
  | nil =>
    intro i st e he
    simp [Analyzer.scanBasic] at he
  | cons line rest ih =>
    intro i st e he
    simp only [Analyzer.scanBasic] at he
    split at he
    · exact ih _ _ e he
    · simp only [List.mem_cons] at he
      rcases he with he | he
      · subst he
        exact ⟨verbUpper_mem _, buildFullPath_basic_ne_nil _ _⟩
      · exact ih _ _ e he

/-- Every endpoint emitted by the async analyzer scan has one of the five
uppercase verbs as its method and a non-empty path. -/
theorem scanAsync_invariant (f : Str) (m : Option Str) :
    ∀ (lines : List Str) (i : Nat) (st : AsyncAnalyzer.ScanState) (e : AsyncAnalyzer.Endpoint),
      e ∈ (AsyncAnalyzer.scanAsync f m i st lines).1 →
      (e.method = S "GET" ∨ e.method = S "POST" ∨ e.method = S "PUT" ∨
        e.method = S "DELETE" ∨ e.method = S "PATCH") ∧ e.path ≠ [] := by
  intro lines
  induction lines with
  | nil =>
    intro i st e he
    simp [AsyncAnalyzer.scanAsync] at he
  | cons line rest ih =>
    intro i st e he
    simp only [AsyncAnalyzer.scanAsync] at he
    split at he
    · exact ih _ _ e he
    · split at he
      · exact ih _ _ e he
      · simp only [List.mem_cons] at he
        rcases he with he | he
        · subst he
          exact ⟨verbUpper_mem _, buildFullPath_async_ne_nil _ _⟩
        · exact ih _ _ e he

/-- C8 Every endpoint produced by the regex extraction engines (basic and
async) has a method that is one of the uppercase verbs GET, POST, PUT,
DELETE, PATCH and a non-empty path; both engines' path composition collapses
two empty fragments to `/`. -/
theorem c8_endpoint_invariants :
    (∀ (f content : Str) (e : Analyzer.Endpoint),
      e ∈ (Analyzer.analyzeJavaFile f content).endpoints →
      (e.method = S "GET" ∨ e.method = S "POST" ∨ e.method = S "PUT" ∨
        e.method = S "DELETE" ∨ e.method = S "PATCH") ∧ e.path ≠ []) ∧
    (∀ (content f : Str) (m : Option Str) (e : AsyncAnalyzer.Endpoint),
      e ∈ (AsyncAnalyzer.parseWithRegex content f m).endpoints →
      (e.method = S "GET" ∨ e.method = S "POST" ∨ e.method = S "PUT" ∨
        e.method = S "DELETE" ∨ e.method = S "PATCH") ∧ e.path ≠ []) ∧
    Analyzer.buildFullPath [] [] = S "/" ∧
    AsyncAnalyzer.buildFullPath [] [] = S "/" := by
  refine ⟨?_, ?_, by decide, by decide⟩
  · intro f content e he
    exact scanBasic_invariant f (Js.splitOn '\n' content) 0 Analyzer.initState e he
  · intro content f m e he
    exact scanAsync_invariant f m (Js.splitOn '\n' content) 0 AsyncAnalyzer.initState e he

/-- C8 witness: the invariant discharged for the concrete endpoint each
engine extracts from a small controller file. -/
theorem c8_witness :
    ((⟨S "GET", S "/hello", S "HelloController", S "hello", S "f", 3, []⟩ :
        Analyzer.Endpoint).method = S "GET" ∨
      (⟨S "GET", S "/hello", S "HelloController", S "hello", S "f", 3, []⟩ :
        Analyzer.Endpoint).method = S "POST" ∨
      (⟨S "GET", S "/hello", S "HelloController", S "hello", S "f", 3, []⟩ :
        Analyzer.Endpoint).method = S "PUT" ∨
      (⟨S "GET", S "/hello", S "HelloController", S "hello", S "f", 3, []⟩ :
        Analyzer.Endpoint).method = S "DELETE" ∨
      (⟨S "GET", S "/hello", S "HelloController", S "hello", S "f", 3, []⟩ :
        Analyzer.Endpoint).method = S "PATCH") ∧
    (⟨S "GET", S "/hello", S "HelloController", S "hello", S "f", 3, []⟩ :
      Analyzer.Endpoint).path ≠ [] :=
  c8_endpoint_invariants.1 (S "f")
    (S "@RestController\nclass HelloController\n@GetMapping(\"/hello\")\npublic String hello()")
    ⟨S "GET", S "/hello", S "HelloController", S "hello", S "f", 3, []⟩ (by decide)

/-- Unfolding one non-emitting line of the async scan. -/
theorem scanAsync_step_none (f : Str) (m : Option Str) (i : Nat)
    (st st2 : AsyncAnalyzer.ScanState) (line : Str) (rest : List Str)
    (h : AsyncAnalyzer.asyncLine st (Js.trim line) = (st2, none)) :
    AsyncAnalyzer.scanAsync f m i st (line :: rest) =
      AsyncAnalyzer.scanAsync f m (i + 1) st2 rest := by
  simp only [AsyncAnalyzer.scanAsync, h]

/-- Unfolding one emitting line of the async scan: the emitted endpoint's
method name is the lookahead result, and the endpoint is dropped when that
name is empty. -/
theorem scanAsync_step_emit (f : Str) (m : Option Str) (i : Nat)
    (st st2 : AsyncAnalyzer.ScanState) (v : Verb) (mp line : Str) (rest : List Str)
    (h : AsyncAnalyzer.asyncLine st (Js.trim line) = (st2, some (v, mp))) :
    AsyncAnalyzer.scanAsync f m i st (line :: rest) =
      (if ((AsyncAnalyzer.lookahead rest).getD []).isEmpty then
        AsyncAnalyzer.scanAsync f m (i + 1) st2 rest
      else
        (⟨v.upper, AsyncAnalyzer.buildFullPath st2.classBasePath mp, st2.currentClass,
          (AsyncAnalyzer.lookahead rest).getD [], f, i + 1, [], m⟩ ::
            (AsyncAnalyzer.scanAsync f m (i + 1) st2 rest).1,
         (AsyncAnalyzer.scanAsync f m (i + 1) st2 rest).2)) := by
  simp only [AsyncAnalyzer.scanAsync, h]

/-- C7 amended: the async analyzer's regex engine resolves the handler name
by scanning up to 2 lines after the annotation, stopping at the first
match — for every declaration line whose method pattern yields a (non-empty)
name, placing it on the second line after the annotation still produces the
endpoint with that name; placing the declaration on the third line after
the annotation produces no endpoint; the basic analyzer's engine inspects
only the single immediately-following line (a declaration there is found). -/
theorem c7_method_lookahead :
    (∀ decl n : Str,
      AsyncAnalyzer.methodExec (Js.trim decl) = some n → n ≠ [] →
      (AsyncAnalyzer.scanAsync (S "f") none 0 AsyncAnalyzer.initState
        [S "@RestController", S "class HelloController", S "@GetMapping(\"/hello\")",
         [], decl]).1.head? =
        some ⟨S "GET", S "/hello", S "HelloController", n, S "f", 3, [], none⟩) ∧
    (AsyncAnalyzer.parseWithRegex
        (S "@RestController\nclass HelloController\n@GetMapping(\"/hello\")\n\n\npublic String hello()")
        (S "f") none).endpoints = [] ∧
    (Analyzer.analyzeJavaFile (S "f")
        (S "@RestController\nclass HelloController\n@GetMapping(\"/hello\")\npublic String hello()")).endpoints =
      [⟨S "GET", S "/hello", S "HelloController", S "hello", S "f", 3, []⟩] := by
  refine ⟨?_, by decide, by decide⟩
  intro decl n h hn
  rw [scanAsync_step_none (S "f") none 0 AsyncAnalyzer.initState ⟨[], [], true⟩
    (S "@RestController")
    [S "class HelloController", S "@GetMapping(\"/hello\")", [], decl] (by decide)]
  rw [scanAsync_step_none (S "f") none 1 ⟨[], [], true⟩ ⟨S "HelloController", [], true⟩
    (S "class HelloController")
    [S "@GetMapping(\"/hello\")", [], decl] (by decide)]
  rw [scanAsync_step_emit (S "f") none 2 ⟨S "HelloController", [], true⟩
    ⟨S "HelloController", [], true⟩ Verb.get (S "/hello")
    (S "@GetMapping(\"/hello\")") [[], decl] (by decide)]
  have hlook : AsyncAnalyzer.lookahead [[], decl] = AsyncAnalyzer.methodExec (Js.trim decl) := rfl
  rw [hlook, h]
  have hEmp : (List.isEmpty n) = false := by
    cases n with
    | nil => exact absurd rfl hn
    | cons c t => rfl
  rw [Option.getD_some, if_neg (by simp [hEmp])]
  rfl

/-- C7 witness: the amended clause discharged at the concrete declaration
line `public String hello()`. -/
theorem c7_witness :
    (AsyncAnalyzer.scanAsync (S "f") none 0 AsyncAnalyzer.initState
      [S "@RestController", S "class HelloController", S "@GetMapping(\"/hello\")",
       [], S "public String hello()"]).1.head? =
      some ⟨S "GET", S "/hello", S "HelloController", S "hello", S "f", 3, [], none⟩ :=
  c7_method_lookahead.1 (S "public String hello()") (S "hello") (by decide) (by decide)

/-- C7 counterexample: with the method declaration on the second line after
the annotation, the basic analyzer's regex engine (which inspects only the
single next line, `src/analyzer.js` lines 106-115) emits the endpoint with
an empty methodName — the declaration is not found, so the claimed 2-line
forward scan does not hold for that engine. -/
theorem c7_counterexample :
    (Analyzer.analyzeJavaFile (S "f")
        (S "@RestController\nclass HelloController\n@GetMapping(\"/hello\")\n\npublic String hello()")).endpoints =
      [⟨S "GET", S "/hello", S "HelloController", [], S "f", 3, []⟩] := by
  decide

/-- C5 counterexample: on the same single-file project, the batched and
queued modes' extraction differs when the regex fallback runs — the
optimized engine joins the fragments as `/api/x` while the async engine
produces `/api//x`, so the final endpoint sets are not equivalent. -/
theorem c5_counterexample :
    ((OptimizedAnalyzer.analyzeEndpoints
        [(S "f",
          S "@RestController\n@RequestMapping(\"/api\")\nclass HelloController\n@GetMapping(\"/x\")\npublic String x()")]).endpoints.map
      OptimizedAnalyzer.Endpoint.path) = [S "/api/x"] ∧
    ((AsyncAnalyzer.analyzeEndpointsAsync
        [(S "f",
          S "@RestController\n@RequestMapping(\"/api\")\nclass HelloController\n@GetMapping(\"/x\")\npublic String x()")]).endpoints.map
      AsyncAnalyzer.Endpoint.path) = [S "/api//x"] := by
  constructor <;> decide

/-- C5 amended: the two modes agree on the extraction projection
(verb, path, className, methodName) whenever the AST engine succeeds with
the same parsed output on every file and that output has non-empty verbs
and paths; their regex fallbacks differ (controller gating and path
joining), so fallback endpoint sets can differ. -/
theorem c5_ast_convert_agree :
    ∀ (parsed : List AstJson) (f : Str) (m : Option Str),
      (∀ ep ∈ parsed, ep.httpMethod ≠ [] ∧ ep.path ≠ []) →
      (optConvert parsed f).map optProj = (asyncConvert parsed f m).map asyncProj := by
  intro parsed f m
  induction parsed with
  | nil => intro h; rfl
  | cons ep rest ih =>
    intro h
    have hep := h ep (List.mem_cons_self _ _)
    have h1 : ep.httpMethod.isEmpty = false := by
      cases hm : ep.httpMethod with
      | nil => exact absurd hm hep.1
      | cons c t => rfl
    have h2 : ep.path.isEmpty = false := by
      cases hm : ep.path with
      | nil => exact absurd hm hep.2
      | cons c t => rfl
    simp only [optConvert, asyncConvert, List.filterMap_cons, List.map_cons, h1, h2,
      Bool.not_false, Bool.and_self, if_pos]
    have := ih (fun e he => h e (List.mem_cons_of_mem _ he))
    simp only [optConvert, asyncConvert] at this
    rw [this]
    rfl

/-- C5 witness: the agreement discharged at a concrete parsed AST output. -/
theorem c5_witness :
    (optConvert [⟨S "GET", S "/a", S "C", S "m", some 5, some [S "p"]⟩] (S "f")).map optProj =
      (asyncConvert [⟨S "GET", S "/a", S "C", S "m", some 5, some [S "p"]⟩] (S "f")
        none).map asyncProj :=
  c5_ast_convert_agree [⟨S "GET", S "/a", S "C", S "m", some 5, some [S "p"]⟩] (S "f") none
    (by decide)
